import Mathlib

/-! Reconciliation engine and reporter of `dreamhost-personal-backup`.

A shallow embedding of `backup/processor.go` and `backup/reporter.go`.

* A Go `map[string]file` is a `Manifest`: a list of key/record pairs whose keys
  are pairwise distinct.  `for k, v := range m` visits the pairs in the order of
  the list; since Go leaves that order unspecified, every statement below is
  proved for an arbitrary list order.
* The callbacks of the processor (`gatherLocalFiles`, `gatherRemoteFiles`,
  `putToRemote`, `removeFromRemote`) are effectful Go functions.  They are
  state transformers over an arbitrary environment type `σ`.
* A Go `error` value is an `Option ε`: `none` is `nil`, and `Error : ε → String`
  is the `Error()` method used by `fmt.Sprintf("%s", err)`.
* The goroutines of `Process` are interleaved by an explicit `Schedule`; each
  callback invocation is one atomic step.
* A send on the `log` channel, a call of `putToRemote` and a call of
  `removeFromRemote`, as made by the processor itself, each append one `Event`
  to the trace of the run.  A send on `log` is taken to be received.
* `isEqual` and the type `file` are declared outside the two files embedded
  here; they are parameters.
-/

namespace backup

/-! ## Data model -/

/-- Association-list lookup: the record stored under `key`, if any. -/
def lookupEntries {file : Type} (key : String) : List (String × file) → Option file
  | [] => none
  | (k, f) :: rest => if k = key then some f else lookupEntries key rest

/-- A Go `map[string]file`: pairs with pairwise distinct keys. -/
structure Manifest (file : Type) where
  entries : List (String × file)
  nodup : (entries.map Prod.fst).Nodup

namespace Manifest

/-- The keys of the map, in iteration order. -/
def keys {file : Type} (m : Manifest file) : List String :=
  m.entries.map Prod.fst

/-- The Go expression `v, found := m[key]`; `none` stands for `found == false`. -/
def lookup {file : Type} (m : Manifest file) (key : String) : Option file :=
  lookupEntries key m.entries

/-- The nil (empty) map. -/
def empty {file : Type} : Manifest file :=
  ⟨[], List.nodup_nil⟩

end Manifest

/-- Modelled from the spec: the declaration of `logEntry` is not among the
sources; `processor.go` builds it as `logEntry{message: ...}`, and the spec
calls it an immutable message.  Only the field the processor sets is kept. -/
structure logEntry where
  message : String
deriving DecidableEq, Repr

/-- The struct `gatherResult` of `processor.go`. -/
structure gatherResult (file ε : Type) where
  result : Manifest file
  err : Option ε

/-- The struct `processor` of `processor.go`.  The `log` channel is not a
field here: what is sent on it is recorded in the trace of the run. -/
structure processor (file ε σ : Type) where
  gatherLocalFiles : σ → (Manifest file × Option ε) × σ
  gatherRemoteFiles : σ → (Manifest file × Option ε) × σ
  putToRemote : String → σ → Option ε × σ
  removeFromRemote : String → σ → Option ε × σ

/-- The constructor `NewProcessor` of `processor.go`. -/
def NewProcessor {file ε σ : Type}
    (localGather remoteGather : σ → (Manifest file × Option ε) × σ)
    (putToRemote removeFromRemote : String → σ → Option ε × σ) : processor file ε σ :=
  { gatherLocalFiles := localGather
    gatherRemoteFiles := remoteGather
    putToRemote := putToRemote
    removeFromRemote := removeFromRemote }

/-- What a run of `Process` does to the outside: a call `putToRemote(key)` with
the error it returned, a call `removeFromRemote(key)` with the error it
returned, or a send of a `logEntry` on the `log` channel. -/
inductive Event (ε : Type) where
  | put (key : String) (err : Option ε)
  | remove (key : String) (err : Option ε)
  | log (entry : logEntry)
deriving DecidableEq, Repr

/-- The state threaded through a run: the environment the callbacks act on and
the events so far, oldest first. -/
structure World (ε σ : Type) where
  env : σ
  trace : List (Event ε)

/-- The keys passed to `putToRemote`, in call order. -/
def putKeys {ε : Type} : List (Event ε) → List String
  | [] => []
  | Event.put key _ :: rest => key :: putKeys rest
  | _ :: rest => putKeys rest

/-- The keys passed to `removeFromRemote`, in call order. -/
def removeKeys {ε : Type} : List (Event ε) → List String
  | [] => []
  | Event.remove key _ :: rest => key :: removeKeys rest
  | _ :: rest => removeKeys rest

/-- The entries sent on the `log` channel, in send order. -/
def logEntries {ε : Type} : List (Event ε) → List logEntry
  | [] => []
  | Event.log entry :: rest => entry :: logEntries rest
  | _ :: rest => logEntries rest

/-! ## The processor -/

/-- The statement `p.putToRemote(lkey)`: the returned error is dropped. -/
def callPut {file ε σ : Type} (p : processor file ε σ) (key : String)
    (w : World ε σ) : World ε σ :=
  let r := p.putToRemote key w.env
  { env := r.2, trace := w.trace ++ [Event.put key r.1] }

/-- The statement `p.removeFromRemote(rkey)`: the returned error is dropped. -/
def callRemove {file ε σ : Type} (p : processor file ε σ) (key : String)
    (w : World ε σ) : World ε σ :=
  let r := p.removeFromRemote key w.env
  { env := r.2, trace := w.trace ++ [Event.remove key r.1] }

/-- The statement `p.log <- entry`. -/
def sendLog {ε σ : Type} (entry : logEntry) (w : World ε σ) : World ε σ :=
  { env := w.env, trace := w.trace ++ [Event.log entry] }

/-- One iteration of the loop of `processLocalVsRemote`. -/
def localVsRemoteStep {file ε σ : Type} (isEqual : file → file → Bool)
    (p : processor file ε σ) (remote : Manifest file)
    (entry : String × file) (w : World ε σ) : World ε σ :=
  match remote.lookup entry.1 with
  | none => callPut p entry.1 w
  | some rfile => if !isEqual entry.2 rfile then callPut p entry.1 w else w

/-- One iteration of the loop of `processRemoteVsLocal`. -/
def remoteVsLocalStep {file ε σ : Type}
    (p : processor file ε σ) (lcl : Manifest file)
    (entry : String × file) (w : World ε σ) : World ε σ :=
  match lcl.lookup entry.1 with
  | none => callRemove p entry.1 w
  | some _ => w

/-- The method `processLocalVsRemote`, run on its own. -/
def processLocalVsRemote {file ε σ : Type} (isEqual : file → file → Bool)
    (p : processor file ε σ) (lcl remote : Manifest file)
    (w : World ε σ) : World ε σ :=
  lcl.entries.foldl (fun acc entry => localVsRemoteStep isEqual p remote entry acc) w

/-- The method `processRemoteVsLocal`, run on its own. -/
def processRemoteVsLocal {file ε σ : Type}
    (p : processor file ε σ) (lcl remote : Manifest file)
    (w : World ε σ) : World ε σ :=
  remote.entries.foldl (fun acc entry => remoteVsLocalStep p lcl entry acc) w

/-- How the goroutines of one run are interleaved.  `remoteGatherFirst` says
whether the goroutine calling `gatherRemoteFiles` makes its call before the one
calling `gatherLocalFiles`.  `passes` drives the two diff goroutines: `true`
lets `processLocalVsRemote` run its next iteration, `false` lets
`processRemoteVsLocal` run its next iteration. -/
structure Schedule where
  remoteGatherFirst : Bool
  passes : List Bool

/-- The two diff goroutines started by `Process`, interleaved as the schedule
says, until both loops are finished (`wg.Wait()`).  A turn given to a loop that
has finished is skipped; when the schedule is used up the rest of the upload
loop runs, then the rest of the delete loop. -/
def runPasses {file ε σ : Type} (isEqual : file → file → Bool)
    (p : processor file ε σ) (lcl remote : Manifest file) :
    List Bool → List (String × file) → List (String × file) → World ε σ → World ε σ
  | [], ls, rs, w =>
      rs.foldl (fun acc entry => remoteVsLocalStep p lcl entry acc)
        (ls.foldl (fun acc entry => localVsRemoteStep isEqual p remote entry acc) w)
  | true :: sched, l :: ls, rs, w =>
      runPasses isEqual p lcl remote sched ls rs (localVsRemoteStep isEqual p remote l w)
  | true :: sched, [], rs, w =>
      runPasses isEqual p lcl remote sched [] rs w
  | false :: sched, ls, r :: rs, w =>
      runPasses isEqual p lcl remote sched ls rs (remoteVsLocalStep p lcl r w)
  | false :: sched, ls, [], w =>
      runPasses isEqual p lcl remote sched ls [] w

/-- The two gather goroutines started by `Process`: both callbacks are called,
in the order the schedule says; the results are what `Process` later receives
from `localResultChan` and `remoteResultChan`. -/
def gather {file ε σ : Type} (p : processor file ε σ) (remoteGatherFirst : Bool)
    (env : σ) : gatherResult file ε × gatherResult file ε × σ :=
  if remoteGatherFirst then
    let r := p.gatherRemoteFiles env
    let l := p.gatherLocalFiles r.2
    (⟨l.1.1, l.1.2⟩, ⟨r.1.1, r.1.2⟩, l.2)
  else
    let l := p.gatherLocalFiles env
    let r := p.gatherRemoteFiles l.2
    (⟨l.1.1, l.1.2⟩, ⟨r.1.1, r.1.2⟩, r.2)

/-- The method `Process`: the returned error and the world after the run, whose
trace starts empty.  The local result is inspected first, then the remote one.
When the local gather failed `Process` returns without receiving the remote
result; the call of `gatherRemoteFiles` is part of the run all the same, its
goroutine having been started. -/
def Process {file ε σ : Type} (isEqual : file → file → Bool) (Error : ε → String)
    (p : processor file ε σ) (sched : Schedule) (env : σ) : Option ε × World ε σ :=
  let g := gather p sched.remoteGatherFirst env
  let w : World ε σ := { env := g.2.2, trace := [] }
  match g.1.err with
  | some e =>
      (some e,
        sendLog ⟨"error returned while gathering local files, err: " ++ Error e⟩ w)
  | none =>
      match g.2.1.err with
      | some e =>
          (some e,
            sendLog ⟨"error returned while gathering remote files, err: " ++ Error e⟩ w)
      | none =>
          (none,
            runPasses isEqual p g.1.result g.2.1.result sched.passes
              g.1.result.entries g.2.1.result.entries w)

/-! ## What the two loops ask for -/

/-- Whether the upload loop calls `putToRemote` for this pair of the local map. -/
def needsUpload {file : Type} (isEqual : file → file → Bool) (remote : Manifest file)
    (entry : String × file) : Bool :=
  match remote.lookup entry.1 with
  | none => true
  | some rfile => !isEqual entry.2 rfile

/-- Whether the delete loop calls `removeFromRemote` for this pair of the remote map. -/
def needsDelete {file : Type} (lcl : Manifest file) (entry : String × file) : Bool :=
  (lcl.lookup entry.1).isNone

/-- The keys the upload loop passes to `putToRemote` over the given pairs. -/
def uploadKeys {file : Type} (isEqual : file → file → Bool) (remote : Manifest file)
    (ls : List (String × file)) : List String :=
  (ls.filter (needsUpload isEqual remote)).map Prod.fst

/-- The keys the delete loop passes to `removeFromRemote` over the given pairs. -/
def deleteKeys {file : Type} (lcl : Manifest file) (rs : List (String × file)) : List String :=
  (rs.filter (needsDelete lcl)).map Prod.fst

/-! ## The remote store after a run -/

namespace Manifest

/-- The Go statement `delete(m, key)`. -/
def erase {file : Type} (m : Manifest file) (key : String) : Manifest file :=
  ⟨m.entries.filter (fun entry => entry.1 != key),
    List.Nodup.sublist (List.Sublist.map Prod.fst (List.filter_sublist m.entries)) m.nodup⟩

/-- The Go statement `m[key] = f`. -/
def insert {file : Type} (m : Manifest file) (key : String) (f : file) : Manifest file :=
  ⟨(key, f) :: (m.erase key).entries, by
    rw [List.map_cons, List.nodup_cons]
    refine ⟨?_, (m.erase key).nodup⟩
    simp [erase, List.mem_map, List.mem_filter]⟩

end Manifest

/-- Modelled from the spec: the remote store behind `putToRemote` and
`removeFromRemote` is not among the sources.  A successful `put(key)` uploads
the local file at `key`, so the remote record under `key` becomes the local one;
a successful `remove(key)` deletes the remote object at `key`; a log send leaves
the store alone.  A put of a key with no local file uploads nothing. -/
def applyEvent {file ε : Type} (lcl : Manifest file) (remote : Manifest file) :
    Event ε → Manifest file
  | Event.put key _ =>
      match lcl.lookup key with
      | some f => remote.insert key f
      | none => remote
  | Event.remove key _ => remote.erase key
  | Event.log _ => remote

/-- The remote manifest after every action of the trace has been applied, in
the order of the trace. -/
def applyActions {file ε : Type} (lcl remote : Manifest file)
    (trace : List (Event ε)) : Manifest file :=
  trace.foldl (applyEvent lcl) remote

/-! ## The reporter -/

/-- The struct `reporter` of `reporter.go`.  The channels `in` and `done` are
the list of receptions handed to `Run`; `logger` holds the lines handed to
`Println` so far, oldest first. -/
structure reporter (entry : Type) where
  logger : List String
  entries : List entry

/-- The constructor `NewReporter` of `reporter.go`. -/
def NewReporter {entry : Type} (l : List String) : reporter entry :=
  { logger := l, entries := [] }

/-- The call `logger.Println(line)`. -/
def Println (logger : List String) (line : String) : List String :=
  logger ++ [line]

/-- Which case of the `select` in `Run` fires: an entry arrives on `in`, or the
signal arrives on `done`. -/
inductive Received (entry : Type) where
  | entry (e : entry)
  | done

/-- The method `Run`, fed the receptions in the order they happen.  `none`: the
receptions ran out before the done signal, so `Run` is still blocked in
`select` and has not returned. -/
def reporter.Run {entry : Type} : reporter entry → List (Received entry) →
    Option (reporter entry)
  | _, [] => none
  | r, Received.entry e :: rest =>
      reporter.Run { logger := r.logger, entries := r.entries ++ [e] } rest
  | r, Received.done :: _ =>
      some { logger := Println r.logger
               "Received done signal, waiting for all processes to finish",
             entries := r.entries }

/-- The method `Print`; `entryString` is the method `String()` of an entry. -/
def reporter.Print {entry : Type} (entryString : entry → String)
    (r : reporter entry) : reporter entry :=
  let l1 := Println r.logger "Report"
  let l2 := Println l1 "-------------------------------"
  let l3 := r.entries.foldl (fun l e => Println l (entryString e)) l2
  { logger := Println l3 "", entries := r.entries }

/-- The same processor with `putToRemote` and `removeFromRemote` replaced by
callbacks that always return `nil` and leave the environment alone. -/
def allSucceed {file ε σ : Type} (p : processor file ε σ) : processor file ε σ :=
  { gatherLocalFiles := p.gatherLocalFiles
    gatherRemoteFiles := p.gatherRemoteFiles
    putToRemote := fun _ s => (none, s)
    removeFromRemote := fun _ s => (none, s) }

/-! ## Concrete inputs

Records are fingerprints in `Nat`, errors are their text, and the environment
counts the callback invocations. -/

/-- Exact-match equality of fingerprints, standing for `isEqual`. -/
def fpEqual (a b : Nat) : Bool :=
  a == b

/-- A gatherer that returns the given map and error. -/
def constGather (m : Manifest Nat) (err : Option String) :
    Nat → (Manifest Nat × Option String) × Nat :=
  fun s => ((m, err), s + 1)

/-- A put/remove callback that succeeds. -/
def okAction : String → Nat → Option String × Nat :=
  fun _ s => (none, s + 1)

/-- A put/remove callback that fails. -/
def failAction : String → Nat → Option String × Nat :=
  fun key s => (some ("remote refused " ++ key), s + 1)

/-- Scenario A, local side: `a:fp1, b:fp2`. -/
def scenarioA_local : Manifest Nat :=
  ⟨[("a", 1), ("b", 2)], by decide⟩

/-- Scenario A, remote side: `a:fp1, c:fp3`. -/
def scenarioA_remote : Manifest Nat :=
  ⟨[("a", 1), ("c", 3)], by decide⟩

/-- Scenario B, remote side: `x:fp1`; the local side is empty. -/
def scenarioB_remote : Manifest Nat :=
  ⟨[("x", 1)], by decide⟩

/-- Scenario C, local side: `a:fp1`. -/
def scenarioC_local : Manifest Nat :=
  ⟨[("a", 1)], by decide⟩

/-- Scenario C, remote side: `a:fp2`. -/
def scenarioC_remote : Manifest Nat :=
  ⟨[("a", 2)], by decide⟩

/-- Scenario A with actions that succeed. -/
def scenarioA : processor Nat String Nat :=
  NewProcessor (constGather scenarioA_local none) (constGather scenarioA_remote none)
    okAction okAction

/-- Scenario A with actions that all fail. -/
def scenarioA_failing : processor Nat String Nat :=
  NewProcessor (constGather scenarioA_local none) (constGather scenarioA_remote none)
    failAction failAction

/-- Scenario B with actions that succeed. -/
def scenarioB : processor Nat String Nat :=
  NewProcessor (constGather Manifest.empty none) (constGather scenarioB_remote none)
    okAction okAction

/-- Scenario C with actions that succeed. -/
def scenarioC : processor Nat String Nat :=
  NewProcessor (constGather scenarioC_local none) (constGather scenarioC_remote none)
    okAction okAction

/-- Scenario D: the local gather fails; the remote gather would have succeeded. -/
def scenarioD : processor Nat String Nat :=
  NewProcessor (constGather scenarioA_local (some "disk unreadable"))
    (constGather scenarioA_remote none) okAction okAction

/-- Only the remote gather fails. -/
def remoteGatherFails : processor Nat String Nat :=
  NewProcessor (constGather scenarioA_local none)
    (constGather scenarioA_remote (some "bucket unreachable")) okAction okAction

/-- Both gathers fail. -/
def bothGathersFail : processor Nat String Nat :=
  NewProcessor (constGather scenarioA_local (some "disk unreadable"))
    (constGather scenarioA_remote (some "bucket unreachable")) okAction okAction

/-- The remote manifest of scenario A after the actions of a first run. -/
def scenarioA_converged : Manifest Nat :=
  applyActions scenarioA_local scenarioA_remote
    (Process fpEqual id scenarioA ⟨false, [false, true]⟩ 0).2.trace

/-- Scenario A, second run: the remote gatherer now returns the converged
manifest. -/
def scenarioA_second : processor Nat String Nat :=
  NewProcessor (constGather scenarioA_local none) (constGather scenarioA_converged none)
    okAction okAction

/-! ## Auxiliary facts -/

section lemmas

variable {file ε σ : Type}

theorem lookupEntries_eq_none_iff (key : String) (es : List (String × file)) :
    lookupEntries key es = none ↔ key ∉ es.map Prod.fst := by
  induction es with
  | nil => simp [lookupEntries]
  | cons hd tl ih =>
    obtain ⟨k, f⟩ := hd
    by_cases h : k = key
    · simp [lookupEntries, h]
    · have h2 : ¬ key = k := fun e => h e.symm
      simp only [lookupEntries, h, if_false, ih, List.map_cons, List.mem_cons, h2, false_or]

theorem mem_of_lookupEntries_eq_some (key : String) (f : file) (es : List (String × file))
    (h : lookupEntries key es = some f) : (key, f) ∈ es := by
  induction es with
  | nil => simp [lookupEntries] at h
  | cons hd tl ih =>
    obtain ⟨k, g⟩ := hd
    by_cases hk : k = key
    · simp only [lookupEntries, hk, if_true, Option.some.injEq] at h
      simp [hk, h]
    · simp only [lookupEntries, hk, if_false] at h
      exact List.mem_cons_of_mem _ (ih h)

theorem lookupEntries_eq_some_of_mem (key : String) (f : file) (es : List (String × file))
    (hnd : (es.map Prod.fst).Nodup) (h : (key, f) ∈ es) : lookupEntries key es = some f := by
  induction es with
  | nil => simp at h
  | cons hd tl ih =>
    obtain ⟨k, g⟩ := hd
    rw [List.map_cons, List.nodup_cons] at hnd
    rcases List.mem_cons.mp h with heq | hmem
    · cases heq
      simp [lookupEntries]
    · have hk : k ≠ key := by
        intro e
        apply hnd.1
        rw [e]
        exact List.mem_map.mpr ⟨(key, f), hmem, rfl⟩
      simp only [lookupEntries, hk, if_false]
      exact ih hnd.2 hmem

theorem Manifest.lookup_eq_some_iff (m : Manifest file) (key : String) (f : file) :
    m.lookup key = some f ↔ (key, f) ∈ m.entries :=
  ⟨mem_of_lookupEntries_eq_some key f m.entries,
    lookupEntries_eq_some_of_mem key f m.entries m.nodup⟩

theorem Manifest.lookup_eq_none_iff (m : Manifest file) (key : String) :
    m.lookup key = none ↔ key ∉ m.keys :=
  lookupEntries_eq_none_iff key m.entries

theorem Manifest.mem_keys_iff (m : Manifest file) (key : String) :
    key ∈ m.keys ↔ ∃ f, m.lookup key = some f := by
  constructor
  · intro h
    cases hl : m.lookup key with
    | none => exact absurd h ((m.lookup_eq_none_iff key).mp hl)
    | some f => exact ⟨f, rfl⟩
  · rintro ⟨f, hf⟩
    by_contra hn
    rw [(m.lookup_eq_none_iff key).mpr hn] at hf
    cases hf

theorem putKeys_append (a b : List (Event ε)) :
    putKeys (a ++ b) = putKeys a ++ putKeys b := by
  induction a with
  | nil => rfl
  | cons e tl ih => cases e <;> simp [putKeys, ih]

theorem removeKeys_append (a b : List (Event ε)) :
    removeKeys (a ++ b) = removeKeys a ++ removeKeys b := by
  induction a with
  | nil => rfl
  | cons e tl ih => cases e <;> simp [removeKeys, ih]

theorem logEntries_append (a b : List (Event ε)) :
    logEntries (a ++ b) = logEntries a ++ logEntries b := by
  induction a with
  | nil => rfl
  | cons e tl ih => cases e <;> simp [logEntries, ih]

theorem uploadKeys_cons (isEqual : file → file → Bool) (remote : Manifest file)
    (l : String × file) (ls : List (String × file)) :
    uploadKeys isEqual remote (l :: ls)
      = (if needsUpload isEqual remote l then [l.1] else []) ++ uploadKeys isEqual remote ls := by
  unfold uploadKeys
  by_cases h : needsUpload isEqual remote l = true <;> simp [List.filter_cons, h]

theorem deleteKeys_cons (lcl : Manifest file) (r : String × file)
    (rs : List (String × file)) :
    deleteKeys lcl (r :: rs)
      = (if needsDelete lcl r then [r.1] else []) ++ deleteKeys lcl rs := by
  unfold deleteKeys
  by_cases h : needsDelete lcl r = true <;> simp [List.filter_cons, h]

/-- What one iteration of the upload loop adds to the trace. -/
theorem localVsRemoteStep_trace (isEqual : file → file → Bool) (p : processor file ε σ)
    (remote : Manifest file) (l : String × file) (w : World ε σ) :
    putKeys (localVsRemoteStep isEqual p remote l w).trace
        = putKeys w.trace ++ (if needsUpload isEqual remote l then [l.1] else [])
      ∧ removeKeys (localVsRemoteStep isEqual p remote l w).trace = removeKeys w.trace
      ∧ logEntries (localVsRemoteStep isEqual p remote l w).trace = logEntries w.trace := by
  unfold localVsRemoteStep needsUpload
  cases remote.lookup l.1 with
  | none =>
    simp [callPut, putKeys_append, removeKeys_append, logEntries_append, putKeys,
      removeKeys, logEntries]
  | some rfile =>
    cases hq : isEqual l.2 rfile <;>
      simp [hq, callPut, putKeys_append, removeKeys_append, logEntries_append, putKeys,
        removeKeys, logEntries]

/-- What one iteration of the delete loop adds to the trace. -/
theorem remoteVsLocalStep_trace (p : processor file ε σ)
    (lcl : Manifest file) (r : String × file) (w : World ε σ) :
    putKeys (remoteVsLocalStep p lcl r w).trace = putKeys w.trace
      ∧ removeKeys (remoteVsLocalStep p lcl r w).trace
        = removeKeys w.trace ++ (if needsDelete lcl r then [r.1] else [])
      ∧ logEntries (remoteVsLocalStep p lcl r w).trace = logEntries w.trace := by
  unfold remoteVsLocalStep needsDelete
  cases lcl.lookup r.1 with
  | none =>
    simp [callRemove, putKeys_append, removeKeys_append, logEntries_append, putKeys,
      removeKeys, logEntries]
  | some lfile => simp

theorem foldl_localVsRemoteStep_trace (isEqual : file → file → Bool)
    (p : processor file ε σ) (remote : Manifest file) (ls : List (String × file))
    (w : World ε σ) :
    putKeys (ls.foldl (fun acc entry => localVsRemoteStep isEqual p remote entry acc) w).trace
        = putKeys w.trace ++ uploadKeys isEqual remote ls
      ∧ removeKeys
          (ls.foldl (fun acc entry => localVsRemoteStep isEqual p remote entry acc) w).trace
        = removeKeys w.trace
      ∧ logEntries
          (ls.foldl (fun acc entry => localVsRemoteStep isEqual p remote entry acc) w).trace
        = logEntries w.trace := by
  induction ls generalizing w with
  | nil => simp [uploadKeys]
  | cons l ls ih =>
    obtain ⟨h1, h2, h3⟩ := localVsRemoteStep_trace isEqual p remote l w
    obtain ⟨i1, i2, i3⟩ := ih (localVsRemoteStep isEqual p remote l w)
    simp only [List.foldl_cons]
    refine ⟨?_, ?_, ?_⟩
    · rw [i1, h1, uploadKeys_cons, List.append_assoc]
    · rw [i2, h2]
    · rw [i3, h3]

theorem foldl_remoteVsLocalStep_trace
    (p : processor file ε σ) (lcl : Manifest file) (rs : List (String × file))
    (w : World ε σ) :
    putKeys (rs.foldl (fun acc entry => remoteVsLocalStep p lcl entry acc) w).trace
        = putKeys w.trace
      ∧ removeKeys (rs.foldl (fun acc entry => remoteVsLocalStep p lcl entry acc) w).trace
        = removeKeys w.trace ++ deleteKeys lcl rs
      ∧ logEntries (rs.foldl (fun acc entry => remoteVsLocalStep p lcl entry acc) w).trace
        = logEntries w.trace := by
  induction rs generalizing w with
  | nil => simp [deleteKeys]
  | cons r rs ih =>
    obtain ⟨h1, h2, h3⟩ := remoteVsLocalStep_trace p lcl r w
    obtain ⟨i1, i2, i3⟩ := ih (remoteVsLocalStep p lcl r w)
    simp only [List.foldl_cons]
    refine ⟨?_, ?_, ?_⟩
    · rw [i1, h1]
    · rw [i2, h2, deleteKeys_cons, List.append_assoc]
    · rw [i3, h3]

/-- Whatever the interleaving, the two loops together add the upload keys of the
remaining local pairs, in order, to the put calls, the delete keys of the
remaining remote pairs, in order, to the remove calls, and nothing to the log. -/
theorem runPasses_trace (isEqual : file → file → Bool) (p : processor file ε σ)
    (lcl remote : Manifest file) (sched : List Bool) (ls rs : List (String × file))
    (w : World ε σ) :
    putKeys (runPasses isEqual p lcl remote sched ls rs w).trace
        = putKeys w.trace ++ uploadKeys isEqual remote ls
      ∧ removeKeys (runPasses isEqual p lcl remote sched ls rs w).trace
        = removeKeys w.trace ++ deleteKeys lcl rs
      ∧ logEntries (runPasses isEqual p lcl remote sched ls rs w).trace
        = logEntries w.trace := by
  induction sched generalizing ls rs w with
  | nil =>
    obtain ⟨h1, h2, h3⟩ := foldl_localVsRemoteStep_trace isEqual p remote ls w
    obtain ⟨i1, i2, i3⟩ := foldl_remoteVsLocalStep_trace p lcl rs
      (ls.foldl (fun acc entry => localVsRemoteStep isEqual p remote entry acc) w)
    simp only [runPasses]
    exact ⟨by rw [i1, h1], by rw [i2, h2], by rw [i3, h3]⟩
  | cons b sched ih =>
    cases b with
    | true =>
      cases ls with
      | nil =>
        simp only [runPasses]
        exact ih [] rs w
      | cons l ls =>
        obtain ⟨h1, h2, h3⟩ := localVsRemoteStep_trace isEqual p remote l w
        obtain ⟨i1, i2, i3⟩ := ih ls rs (localVsRemoteStep isEqual p remote l w)
        simp only [runPasses]
        refine ⟨?_, ?_, ?_⟩
        · rw [i1, h1, uploadKeys_cons, List.append_assoc]
        · rw [i2, h2]
        · rw [i3, h3]
    | false =>
      cases rs with
      | nil =>
        simp only [runPasses]
        exact ih ls [] w
      | cons r rs =>
        obtain ⟨h1, h2, h3⟩ := remoteVsLocalStep_trace p lcl r w
        obtain ⟨i1, i2, i3⟩ := ih ls rs (remoteVsLocalStep p lcl r w)
        simp only [runPasses]
        refine ⟨?_, ?_, ?_⟩
        · rw [i1, h1]
        · rw [i2, h2, deleteKeys_cons, List.append_assoc]
        · rw [i3, h3]

/-- With the schedule used up from the start, the run of the two loops is the
upload loop followed by the delete loop. -/
theorem runPasses_nil (isEqual : file → file → Bool) (p : processor file ε σ)
    (lcl remote : Manifest file) (w : World ε σ) :
    runPasses isEqual p lcl remote [] lcl.entries remote.entries w
      = processRemoteVsLocal p lcl remote (processLocalVsRemote isEqual p lcl remote w) := by
  simp [runPasses, processRemoteVsLocal, processLocalVsRemote]

theorem mem_uploadKeys_iff (isEqual : file → file → Bool) (lcl remote : Manifest file)
    (k : String) :
    k ∈ uploadKeys isEqual remote lcl.entries
      ↔ ∃ lf, lcl.lookup k = some lf ∧
          (remote.lookup k = none ∨ ∃ rf, remote.lookup k = some rf ∧ isEqual lf rf = false) := by
  unfold uploadKeys
  simp only [List.mem_map, List.mem_filter, Prod.exists, exists_and_right, exists_eq_right]
  constructor
  · rintro ⟨lf, hmem, hneed⟩
    refine ⟨lf, (lcl.lookup_eq_some_iff k lf).mpr hmem, ?_⟩
    unfold needsUpload at hneed
    cases hr : remote.lookup k with
    | none => exact Or.inl rfl
    | some rf =>
      right
      refine ⟨rf, rfl, ?_⟩
      simp only [hr] at hneed
      simpa using hneed
  · rintro ⟨lf, hl, hcase⟩
    refine ⟨lf, (lcl.lookup_eq_some_iff k lf).mp hl, ?_⟩
    unfold needsUpload
    rcases hcase with hn | ⟨rf, hr, hq⟩
    · simp [hn]
    · simp [hr, hq]

theorem mem_deleteKeys_iff (lcl remote : Manifest file) (k : String) :
    k ∈ deleteKeys lcl remote.entries ↔ k ∈ remote.keys ∧ k ∉ lcl.keys := by
  unfold deleteKeys
  simp only [List.mem_map, List.mem_filter, Prod.exists, exists_and_right, exists_eq_right]
  constructor
  · rintro ⟨rf, hmem, hneed⟩
    refine ⟨List.mem_map.mpr ⟨(k, rf), hmem, rfl⟩, ?_⟩
    unfold needsDelete at hneed
    rw [Option.isNone_iff_eq_none] at hneed
    exact (lcl.lookup_eq_none_iff k).mp hneed
  · rintro ⟨hr, hl⟩
    obtain ⟨rf, hrf⟩ := (remote.mem_keys_iff k).mp hr
    refine ⟨rf, (remote.lookup_eq_some_iff k rf).mp hrf, ?_⟩
    unfold needsDelete
    rw [Option.isNone_iff_eq_none]
    exact (lcl.lookup_eq_none_iff k).mpr hl

theorem uploadKeys_nodup (isEqual : file → file → Bool) (lcl remote : Manifest file) :
    (uploadKeys isEqual remote lcl.entries).Nodup :=
  List.Nodup.sublist (List.Sublist.map Prod.fst (List.filter_sublist lcl.entries)) lcl.nodup

theorem deleteKeys_nodup (lcl remote : Manifest file) :
    (deleteKeys lcl remote.entries).Nodup :=
  List.Nodup.sublist (List.Sublist.map Prod.fst (List.filter_sublist remote.entries))
    remote.nodup

theorem Process_local_err (isEqual : file → file → Bool) (Error : ε → String)
    (p : processor file ε σ) (sched : Schedule) (env : σ) (e : ε)
    (hl : (gather p sched.remoteGatherFirst env).1.err = some e) :
    Process isEqual Error p sched env
      = (some e,
          sendLog ⟨"error returned while gathering local files, err: " ++ Error e⟩
            ⟨(gather p sched.remoteGatherFirst env).2.2, []⟩) := by
  simp only [Process, hl]

theorem Process_remote_err (isEqual : file → file → Bool) (Error : ε → String)
    (p : processor file ε σ) (sched : Schedule) (env : σ) (e : ε)
    (hl : (gather p sched.remoteGatherFirst env).1.err = none)
    (hr : (gather p sched.remoteGatherFirst env).2.1.err = some e) :
    Process isEqual Error p sched env
      = (some e,
          sendLog ⟨"error returned while gathering remote files, err: " ++ Error e⟩
            ⟨(gather p sched.remoteGatherFirst env).2.2, []⟩) := by
  simp only [Process, hl, hr]

theorem Process_ok (isEqual : file → file → Bool) (Error : ε → String)
    (p : processor file ε σ) (sched : Schedule) (env : σ)
    (hl : (gather p sched.remoteGatherFirst env).1.err = none)
    (hr : (gather p sched.remoteGatherFirst env).2.1.err = none) :
    Process isEqual Error p sched env
      = (none,
          runPasses isEqual p (gather p sched.remoteGatherFirst env).1.result
            (gather p sched.remoteGatherFirst env).2.1.result sched.passes
            (gather p sched.remoteGatherFirst env).1.result.entries
            (gather p sched.remoteGatherFirst env).2.1.result.entries
            ⟨(gather p sched.remoteGatherFirst env).2.2, []⟩) := by
  simp only [Process, hl, hr]

/-- The calls and log sends of a run whose two gathers succeeded with the
manifests `L` and `R`. -/
theorem Process_ok_trace (isEqual : file → file → Bool) (Error : ε → String)
    (p : processor file ε σ) (sched : Schedule) (env : σ)
    (L R : Manifest file) (s : σ)
    (hg : gather p sched.remoteGatherFirst env = (⟨L, none⟩, ⟨R, none⟩, s)) :
    (Process isEqual Error p sched env).1 = none
      ∧ putKeys (Process isEqual Error p sched env).2.trace = uploadKeys isEqual R L.entries
      ∧ removeKeys (Process isEqual Error p sched env).2.trace = deleteKeys L R.entries
      ∧ logEntries (Process isEqual Error p sched env).2.trace = [] := by
  have hl : (gather p sched.remoteGatherFirst env).1.err = none := by rw [hg]
  have hr : (gather p sched.remoteGatherFirst env).2.1.err = none := by rw [hg]
  rw [Process_ok isEqual Error p sched env hl hr, hg]
  obtain ⟨h1, h2, h3⟩ := runPasses_trace isEqual p L R sched.passes L.entries R.entries ⟨s, []⟩
  refine ⟨rfl, ?_, ?_, ?_⟩
  · simpa [putKeys] using h1
  · simpa [removeKeys] using h2
  · simpa [logEntries] using h3

/-- The calls of any run, failed gathers included, in terms of what the
gatherers returned. -/
theorem Process_calls (isEqual : file → file → Bool) (Error : ε → String)
    (p : processor file ε σ) (sched : Schedule) (env : σ) :
    (∀ k, k ∈ putKeys (Process isEqual Error p sched env).2.trace →
        k ∈ uploadKeys isEqual (gather p sched.remoteGatherFirst env).2.1.result
          (gather p sched.remoteGatherFirst env).1.result.entries)
      ∧ (∀ k, k ∈ removeKeys (Process isEqual Error p sched env).2.trace →
        k ∈ deleteKeys (gather p sched.remoteGatherFirst env).1.result
          (gather p sched.remoteGatherFirst env).2.1.result.entries) := by
  cases hl : (gather p sched.remoteGatherFirst env).1.err with
  | some e =>
    rw [Process_local_err isEqual Error p sched env e hl]
    simp [sendLog, putKeys, removeKeys]
  | none =>
    cases hr : (gather p sched.remoteGatherFirst env).2.1.err with
    | some e =>
      rw [Process_remote_err isEqual Error p sched env e hl hr]
      simp [sendLog, putKeys, removeKeys]
    | none =>
      rw [Process_ok isEqual Error p sched env hl hr]
      obtain ⟨h1, h2, _⟩ := runPasses_trace isEqual p
        (gather p sched.remoteGatherFirst env).1.result
        (gather p sched.remoteGatherFirst env).2.1.result sched.passes
        (gather p sched.remoteGatherFirst env).1.result.entries
        (gather p sched.remoteGatherFirst env).2.1.result.entries
        ⟨(gather p sched.remoteGatherFirst env).2.2, []⟩
      rw [h1, h2]
      simp [putKeys, removeKeys]

theorem lookupEntries_filter_ne (key k : String) (es : List (String × file)) :
    lookupEntries k (es.filter (fun entry => entry.1 != key))
      = if k = key then none else lookupEntries k es := by
  induction es with
  | nil => simp [lookupEntries]
  | cons hd tl ih =>
    obtain ⟨a, f⟩ := hd
    by_cases ha : a = key
    · subst ha
      by_cases hk : k = a
      · subst hk
        simpa [List.filter_cons] using ih
      · have hk2 : ¬ a = k := fun e => hk e.symm
        simp [List.filter_cons, ih, hk, hk2, lookupEntries]
    · by_cases hk : k = key
      · subst hk
        simp [List.filter_cons, ha, lookupEntries, ih]
      · by_cases hak : a = k
        · simp [List.filter_cons, ha, lookupEntries, hak, hk]
        · simp [List.filter_cons, ha, lookupEntries, hak, hk, ih]

theorem Manifest.lookup_erase (m : Manifest file) (key k : String) :
    (m.erase key).lookup k = if k = key then none else m.lookup k :=
  lookupEntries_filter_ne key k m.entries

theorem Manifest.lookup_insert (m : Manifest file) (key k : String) (f : file) :
    (m.insert key f).lookup k = if k = key then some f else m.lookup k := by
  by_cases hk : k = key
  · subst hk
    simp [Manifest.insert, Manifest.lookup, lookupEntries]
  · have hk2 : ¬ key = k := fun e => hk e.symm
    have h := Manifest.lookup_erase m key k
    simp only [hk, if_false] at h
    simp only [Manifest.insert, Manifest.lookup, lookupEntries, hk, hk2, if_false]
    exact h

/-- An event that is neither a put nor a remove of `k` leaves the record under
`k` alone. -/
theorem applyEvent_lookup_other (lcl remote : Manifest file) (ev : Event ε) (k : String)
    (hp : k ∉ putKeys [ev]) (hr : k ∉ removeKeys [ev]) :
    (applyEvent lcl remote ev).lookup k = remote.lookup k := by
  cases ev with
  | put key err =>
    have hk : k ≠ key := by simpa [putKeys] using hp
    simp only [applyEvent]
    cases lcl.lookup key with
    | none => rfl
    | some f => simp [Manifest.lookup_insert, hk]
  | remove key err =>
    have hk : k ≠ key := by simpa [removeKeys] using hr
    simp [applyEvent, Manifest.lookup_erase, hk]
  | log entry => rfl

theorem putKeys_cons (ev : Event ε) (t : List (Event ε)) :
    putKeys (ev :: t) = putKeys [ev] ++ putKeys t :=
  putKeys_append [ev] t

theorem removeKeys_cons (ev : Event ε) (t : List (Event ε)) :
    removeKeys (ev :: t) = removeKeys [ev] ++ removeKeys t :=
  removeKeys_append [ev] t

theorem applyActions_lookup_untouched (lcl remote : Manifest file) (t : List (Event ε))
    (k : String) (hp : k ∉ putKeys t) (hr : k ∉ removeKeys t) :
    (applyActions lcl remote t).lookup k = remote.lookup k := by
  induction t generalizing remote with
  | nil => rfl
  | cons ev t ih =>
    rw [putKeys_cons, List.mem_append, not_or] at hp
    rw [removeKeys_cons, List.mem_append, not_or] at hr
    simp only [applyActions, List.foldl_cons]
    have h := ih (applyEvent lcl remote ev) hp.2 hr.2
    simp only [applyActions] at h
    rw [h, applyEvent_lookup_other lcl remote ev k hp.1 hr.1]

theorem applyActions_lookup_put (lcl remote : Manifest file) (t : List (Event ε))
    (k : String) (lf : file) (hl : lcl.lookup k = some lf)
    (hp : k ∈ putKeys t) (hr : k ∉ removeKeys t) :
    (applyActions lcl remote t).lookup k = some lf := by
  induction t generalizing remote with
  | nil => simp [putKeys] at hp
  | cons ev t ih =>
    rw [removeKeys_cons, List.mem_append, not_or] at hr
    by_cases hlater : k ∈ putKeys t
    · have h := ih (applyEvent lcl remote ev) hlater hr.2
      simpa only [applyActions, List.foldl_cons] using h
    · have h := applyActions_lookup_untouched lcl (applyEvent lcl remote ev) t k hlater hr.2
      simp only [applyActions, List.foldl_cons] at h ⊢
      rw [h]
      rw [putKeys_cons, List.mem_append] at hp
      have hnow : k ∈ putKeys [ev] := hp.resolve_right hlater
      cases ev with
      | put key err =>
        have hk : k = key := by simpa [putKeys] using hnow
        subst hk
        simp [applyEvent, hl, Manifest.lookup_insert]
      | remove key err => simp [putKeys] at hnow
      | log entry => simp [putKeys] at hnow

theorem applyActions_lookup_remove (lcl remote : Manifest file) (t : List (Event ε))
    (k : String) (hr : k ∈ removeKeys t) (hp : k ∉ putKeys t) :
    (applyActions lcl remote t).lookup k = none := by
  induction t generalizing remote with
  | nil => simp [removeKeys] at hr
  | cons ev t ih =>
    rw [putKeys_cons, List.mem_append, not_or] at hp
    by_cases hlater : k ∈ removeKeys t
    · have h := ih (applyEvent lcl remote ev) hlater hp.2
      simpa only [applyActions, List.foldl_cons] using h
    · have h := applyActions_lookup_untouched lcl (applyEvent lcl remote ev) t k hp.2 hlater
      simp only [applyActions, List.foldl_cons] at h ⊢
      rw [h]
      rw [removeKeys_cons, List.mem_append] at hr
      have hnow : k ∈ removeKeys [ev] := hr.resolve_right hlater
      cases ev with
      | put key err => simp [removeKeys] at hnow
      | remove key err =>
        have hk : k = key := by simpa [removeKeys] using hnow
        subst hk
        simp [applyEvent, Manifest.lookup_erase]
      | log entry => simp [removeKeys] at hnow

/-- Applying the puts of the upload keys and the removes of the delete keys to
the remote manifest makes it agree with the local one, when `isEqual` is exact
equality. -/
theorem applyActions_converges (isEqual : file → file → Bool)
    (hEq : ∀ f g, isEqual f g = true ↔ f = g) (L R : Manifest file)
    (t : List (Event ε)) (hput : putKeys t = uploadKeys isEqual R L.entries)
    (hrem : removeKeys t = deleteKeys L R.entries) (k : String) :
    (applyActions L R t).lookup k = L.lookup k := by
  by_cases hu : k ∈ putKeys t
  · have hu2 := hu
    rw [hput, mem_uploadKeys_iff] at hu2
    obtain ⟨lf, hlf, _⟩ := hu2
    have hnr : k ∉ removeKeys t := by
      rw [hrem, mem_deleteKeys_iff]
      exact fun h => h.2 ((L.mem_keys_iff k).mpr ⟨lf, hlf⟩)
    rw [applyActions_lookup_put L R t k lf hlf hu hnr, hlf]
  · by_cases hd : k ∈ removeKeys t
    · have hd2 := hd
      rw [hrem, mem_deleteKeys_iff] at hd2
      rw [applyActions_lookup_remove L R t k hd hu, (L.lookup_eq_none_iff k).mpr hd2.2]
    · rw [applyActions_lookup_untouched L R t k hu hd]
      rw [hput, mem_uploadKeys_iff] at hu
      rw [hrem, mem_deleteKeys_iff] at hd
      cases hl : L.lookup k with
      | none =>
        cases hr : R.lookup k with
        | none => rfl
        | some rf =>
          exact absurd ⟨(R.mem_keys_iff k).mpr ⟨rf, hr⟩, (L.lookup_eq_none_iff k).mp hl⟩ hd
      | some lf =>
        cases hr : R.lookup k with
        | none => exact absurd ⟨lf, hl, Or.inl hr⟩ hu
        | some rf =>
          cases hq : isEqual lf rf with
          | false => exact absurd ⟨lf, hl, Or.inr ⟨rf, hr, hq⟩⟩ hu
          | true => rw [(hEq lf rf).mp hq]

/-- Manifests that agree key by key need no upload and no delete, when `isEqual`
holds of a record and itself. -/
theorem no_actions_of_agree (isEqual : file → file → Bool)
    (hrefl : ∀ f, isEqual f f = true) (L R : Manifest file)
    (h : ∀ k, R.lookup k = L.lookup k) :
    uploadKeys isEqual R L.entries = [] ∧ deleteKeys L R.entries = [] := by
  constructor
  · rw [List.eq_nil_iff_forall_not_mem]
    intro k hk
    rw [mem_uploadKeys_iff] at hk
    obtain ⟨lf, hlf, hc⟩ := hk
    rw [h k, hlf] at hc
    rcases hc with hn | ⟨rf, hrf, hq⟩
    · cases hn
    · cases hrf
      rw [hrefl lf] at hq
      cases hq
  · rw [List.eq_nil_iff_forall_not_mem]
    intro k hk
    rw [mem_deleteKeys_iff] at hk
    obtain ⟨rf, hrf⟩ := (R.mem_keys_iff k).mp hk.1
    rw [h k] at hrf
    exact hk.2 ((L.mem_keys_iff k).mpr ⟨rf, hrf⟩)

theorem foldl_Println {α : Type} (entryString : α → String) (es : List α) (l : List String) :
    es.foldl (fun acc e => Println acc (entryString e)) l = l ++ es.map entryString := by
  induction es generalizing l with
  | nil => simp
  | cons e es ih =>
    rw [List.foldl_cons, ih, Println, List.map_cons, List.append_assoc,
      List.singleton_append]

theorem reporter_Run_entries {α : Type} (r : reporter α) (es : List α) (later : List (Received α)) :
    reporter.Run r (es.map Received.entry ++ Received.done :: later)
      = some { logger := r.logger
                 ++ ["Received done signal, waiting for all processes to finish"],
               entries := r.entries ++ es } := by
  induction es generalizing r with
  | nil => simp [reporter.Run, Println]
  | cons e es ih => simp [reporter.Run, ih]

end lemmas

/-! ## The claims -/

/-- C1: when both gatherers return successfully with manifests `L` and `R`, a
key is passed to `putToRemote` during `Process` exactly when it is a key of `L`
that is missing from `R` or whose records in `L` and `R` are not equal under
`isEqual`. -/
theorem upload_set_exact {file ε σ : Type} (isEqual : file → file → Bool)
    (Error : ε → String) (p : processor file ε σ) (sched : Schedule) (env : σ)
    (L R : Manifest file) (s : σ)
    (hg : gather p sched.remoteGatherFirst env = (⟨L, none⟩, ⟨R, none⟩, s))
    (k : String) :
    k ∈ putKeys (Process isEqual Error p sched env).2.trace
      ↔ ∃ lf, L.lookup k = some lf ∧
          (R.lookup k = none ∨ ∃ rf, R.lookup k = some rf ∧ isEqual lf rf = false) := by
  rw [(Process_ok_trace isEqual Error p sched env L R s hg).2.1]
  exact mem_uploadKeys_iff isEqual L R k

/-- Scenario A uploads exactly `b` and scenario C uploads exactly `a`. -/
theorem upload_set_exact_witness :
    gather scenarioA false 0 = (⟨scenarioA_local, none⟩, ⟨scenarioA_remote, none⟩, 2)
      ∧ ("b" ∈ putKeys (Process fpEqual id scenarioA ⟨false, [false, true]⟩ 0).2.trace
          ↔ ∃ lf, scenarioA_local.lookup "b" = some lf ∧
              (scenarioA_remote.lookup "b" = none
                ∨ ∃ rf, scenarioA_remote.lookup "b" = some rf ∧ fpEqual lf rf = false))
      ∧ putKeys (Process fpEqual id scenarioA ⟨false, [false, true]⟩ 0).2.trace = ["b"]
      ∧ putKeys (Process fpEqual id scenarioC ⟨true, []⟩ 0).2.trace = ["a"] :=
  ⟨rfl,
    upload_set_exact fpEqual id scenarioA ⟨false, [false, true]⟩ 0
      scenarioA_local scenarioA_remote 2 rfl "b",
    by decide, by decide⟩

/-- C2: when both gatherers return successfully with manifests `L` and `R`, a
key is passed to `removeFromRemote` during `Process` exactly when it is a key of
`R` that is not a key of `L`; and a second run whose manifests `L2`, `R2` have
the same key sets (whatever their records, equality rule, callbacks and
schedule) passes the same set of keys to `removeFromRemote`. -/
theorem delete_set_exact {file ε σ : Type} (isEqual isEqual2 : file → file → Bool)
    (Error : ε → String) (p p2 : processor file ε σ) (sched sched2 : Schedule)
    (env env2 : σ) (L R L2 R2 : Manifest file) (s s2 : σ)
    (hg : gather p sched.remoteGatherFirst env = (⟨L, none⟩, ⟨R, none⟩, s))
    (hg2 : gather p2 sched2.remoteGatherFirst env2 = (⟨L2, none⟩, ⟨R2, none⟩, s2))
    (hL : ∀ k, k ∈ L2.keys ↔ k ∈ L.keys) (hR : ∀ k, k ∈ R2.keys ↔ k ∈ R.keys) :
    (∀ k, k ∈ removeKeys (Process isEqual Error p sched env).2.trace
        ↔ k ∈ R.keys ∧ k ∉ L.keys)
      ∧ (∀ k, k ∈ removeKeys (Process isEqual2 Error p2 sched2 env2).2.trace
        ↔ k ∈ removeKeys (Process isEqual Error p sched env).2.trace) := by
  rw [(Process_ok_trace isEqual Error p sched env L R s hg).2.2.1,
    (Process_ok_trace isEqual2 Error p2 sched2 env2 L2 R2 s2 hg2).2.2.1]
  refine ⟨fun k => mem_deleteKeys_iff L R k, fun k => ?_⟩
  rw [mem_deleteKeys_iff, mem_deleteKeys_iff, hL, hR]

/-- Scenario B deletes exactly `x`; scenario A deletes exactly `c`, and so does
a run on manifests with the same keys and other records. -/
theorem delete_set_exact_witness :
    gather scenarioB true 0 = (⟨Manifest.empty, none⟩, ⟨scenarioB_remote, none⟩, 2)
      ∧ gather scenarioB false 5 = (⟨Manifest.empty, none⟩, ⟨scenarioB_remote, none⟩, 7)
      ∧ ((∀ k, k ∈ removeKeys (Process fpEqual id scenarioB ⟨true, [true]⟩ 0).2.trace
            ↔ k ∈ scenarioB_remote.keys ∧ k ∉ (Manifest.empty : Manifest Nat).keys)
          ∧ (∀ k, k ∈ removeKeys
                (Process (fun _ _ => true) id scenarioB ⟨false, []⟩ 5).2.trace
            ↔ k ∈ removeKeys (Process fpEqual id scenarioB ⟨true, [true]⟩ 0).2.trace))
      ∧ removeKeys (Process fpEqual id scenarioB ⟨true, [true]⟩ 0).2.trace = ["x"]
      ∧ removeKeys (Process fpEqual id scenarioA ⟨false, [true, false]⟩ 0).2.trace = ["c"] :=
  ⟨rfl, rfl,
    delete_set_exact fpEqual (fun _ _ => true) id scenarioB scenarioB ⟨true, [true]⟩
      ⟨false, []⟩ 0 5 Manifest.empty scenarioB_remote Manifest.empty scenarioB_remote 2 7
      rfl rfl (fun _ => Iff.rfl) (fun _ => Iff.rfl),
    by decide, by decide⟩

/-- C3: if the call of `gatherLocalFiles` returns an error, or it returns no
error and the call of `gatherRemoteFiles` returns one, then `Process` returns
that error, calls neither `putToRemote` nor `removeFromRemote`, and leaves the
environment as the gatherers left it, whatever maps came with the error. -/
theorem gather_failure_fail_fast {file ε σ : Type} (isEqual : file → file → Bool)
    (Error : ε → String) (p : processor file ε σ) (sched : Schedule) (env : σ) (e : ε)
    (h : (gather p sched.remoteGatherFirst env).1.err = some e
      ∨ ((gather p sched.remoteGatherFirst env).1.err = none
          ∧ (gather p sched.remoteGatherFirst env).2.1.err = some e)) :
    (Process isEqual Error p sched env).1 = some e
      ∧ putKeys (Process isEqual Error p sched env).2.trace = []
      ∧ removeKeys (Process isEqual Error p sched env).2.trace = []
      ∧ (Process isEqual Error p sched env).2.env
          = (gather p sched.remoteGatherFirst env).2.2 := by
  rcases h with hl | ⟨hl, hr⟩
  · rw [Process_local_err isEqual Error p sched env e hl]
    simp [sendLog, putKeys, removeKeys]
  · rw [Process_remote_err isEqual Error p sched env e hl hr]
    simp [sendLog, putKeys, removeKeys]

/-- Scenario D: the local gather fails on manifests that differ, and nothing is
uploaded or deleted; likewise when only the remote gather fails. -/
theorem gather_failure_fail_fast_witness :
    ((gather scenarioD false 0).1.err = some "disk unreadable"
        ∨ ((gather scenarioD false 0).1.err = none
            ∧ (gather scenarioD false 0).2.1.err = some "disk unreadable"))
      ∧ ((Process fpEqual id scenarioD ⟨false, [true, false]⟩ 0).1 = some "disk unreadable"
          ∧ putKeys (Process fpEqual id scenarioD ⟨false, [true, false]⟩ 0).2.trace = []
          ∧ removeKeys (Process fpEqual id scenarioD ⟨false, [true, false]⟩ 0).2.trace = []
          ∧ (Process fpEqual id scenarioD ⟨false, [true, false]⟩ 0).2.env
              = (gather scenarioD false 0).2.2)
      ∧ (Process fpEqual id remoteGatherFails ⟨true, []⟩ 0).1 = some "bucket unreachable" :=
  ⟨Or.inl rfl,
    gather_failure_fail_fast fpEqual id scenarioD ⟨false, [true, false]⟩ 0
      "disk unreadable" (Or.inl rfl),
    (gather_failure_fail_fast fpEqual id remoteGatherFails ⟨true, []⟩ 0
      "bucket unreachable" (Or.inr ⟨rfl, rfl⟩)).1⟩

/-- C4: in every run of `Process` no key is passed both to `putToRemote` and to
`removeFromRemote`: a key passed to `putToRemote` is a key of the local
manifest, a key passed to `removeFromRemote` is not. -/
theorem upload_delete_disjoint {file ε σ : Type} (isEqual : file → file → Bool)
    (Error : ε → String) (p : processor file ε σ) (sched : Schedule) (env : σ)
    (k : String) :
    (k ∈ putKeys (Process isEqual Error p sched env).2.trace →
        k ∈ (gather p sched.remoteGatherFirst env).1.result.keys)
      ∧ (k ∈ removeKeys (Process isEqual Error p sched env).2.trace →
        k ∉ (gather p sched.remoteGatherFirst env).1.result.keys)
      ∧ ¬ (k ∈ putKeys (Process isEqual Error p sched env).2.trace
          ∧ k ∈ removeKeys (Process isEqual Error p sched env).2.trace) := by
  obtain ⟨hp, hr⟩ := Process_calls isEqual Error p sched env
  have h1 : k ∈ putKeys (Process isEqual Error p sched env).2.trace →
      k ∈ (gather p sched.remoteGatherFirst env).1.result.keys := by
    intro hk
    obtain ⟨lf, hlf, _⟩ := (mem_uploadKeys_iff isEqual _ _ k).mp (hp k hk)
    exact (Manifest.mem_keys_iff _ k).mpr ⟨lf, hlf⟩
  have h2 : k ∈ removeKeys (Process isEqual Error p sched env).2.trace →
      k ∉ (gather p sched.remoteGatherFirst env).1.result.keys := by
    intro hk
    exact ((mem_deleteKeys_iff _ _ k).mp (hr k hk)).2
  exact ⟨h1, h2, fun hboth => h2 hboth.2 (h1 hboth.1)⟩

/-- In scenario A the uploaded key `b` is local and not deleted, the deleted key
`c` is not local. -/
theorem upload_delete_disjoint_witness :
    (("b" ∈ putKeys (Process fpEqual id scenarioA ⟨false, [false]⟩ 0).2.trace →
        "b" ∈ (gather scenarioA false 0).1.result.keys)
      ∧ ("b" ∈ removeKeys (Process fpEqual id scenarioA ⟨false, [false]⟩ 0).2.trace →
        "b" ∉ (gather scenarioA false 0).1.result.keys)
      ∧ ¬ ("b" ∈ putKeys (Process fpEqual id scenarioA ⟨false, [false]⟩ 0).2.trace
          ∧ "b" ∈ removeKeys (Process fpEqual id scenarioA ⟨false, [false]⟩ 0).2.trace))
      ∧ (Process fpEqual id scenarioA ⟨false, [false]⟩ 0).2.trace
          = [Event.put "b" none, Event.remove "c" none] :=
  ⟨upload_delete_disjoint fpEqual id scenarioA ⟨false, [false]⟩ 0 "b", by decide⟩

/-- C5: let `isEqual` be exact equality of records and let both gatherers
return successfully with manifests `L` and `R`.  The remote manifest obtained
from `R` by applying every action of the run agrees with `L` on every key; a
second run whose gatherers return `L` and a map `R2` with the content of that
manifest calls neither `putToRemote` nor `removeFromRemote`; and if `R` already
agrees with `L` the first run calls neither. -/
theorem convergence_idempotent {file ε σ : Type} (isEqual : file → file → Bool)
    (hEq : ∀ f g, isEqual f g = true ↔ f = g)
    (Error : ε → String) (p p2 : processor file ε σ) (sched sched2 : Schedule)
    (env env2 : σ) (L R R2 : Manifest file) (s s2 : σ)
    (hg : gather p sched.remoteGatherFirst env = (⟨L, none⟩, ⟨R, none⟩, s))
    (hR2 : ∀ k, R2.lookup k
      = (applyActions L R (Process isEqual Error p sched env).2.trace).lookup k)
    (hg2 : gather p2 sched2.remoteGatherFirst env2 = (⟨L, none⟩, ⟨R2, none⟩, s2)) :
    (∀ k, (applyActions L R (Process isEqual Error p sched env).2.trace).lookup k
        = L.lookup k)
      ∧ putKeys (Process isEqual Error p2 sched2 env2).2.trace = []
      ∧ removeKeys (Process isEqual Error p2 sched2 env2).2.trace = []
      ∧ ((∀ k, R.lookup k = L.lookup k) →
          putKeys (Process isEqual Error p sched env).2.trace = []
            ∧ removeKeys (Process isEqual Error p sched env).2.trace = []) := by
  have hrefl : ∀ f, isEqual f f = true := fun f => (hEq f f).mpr rfl
  obtain ⟨_, h1, h2, _⟩ := Process_ok_trace isEqual Error p sched env L R s hg
  obtain ⟨_, i1, i2, _⟩ := Process_ok_trace isEqual Error p2 sched2 env2 L R2 s2 hg2
  have hconv : ∀ k,
      (applyActions L R (Process isEqual Error p sched env).2.trace).lookup k = L.lookup k :=
    fun k => applyActions_converges isEqual hEq L R _ h1 h2 k
  have hagree : ∀ k, R2.lookup k = L.lookup k := fun k => by rw [hR2 k, hconv k]
  refine ⟨hconv, ?_, ?_, fun hsame => ?_⟩
  · rw [i1]
    exact (no_actions_of_agree isEqual hrefl L R2 hagree).1
  · rw [i2]
    exact (no_actions_of_agree isEqual hrefl L R2 hagree).2
  · rw [h1, h2]
    exact no_actions_of_agree isEqual hrefl L R hsame

/-- Scenario A: after the put of `b` and the remove of `c` the remote manifest
holds `a:fp1, b:fp2`, and a second run does nothing. -/
theorem convergence_idempotent_witness :
    (∀ f g, fpEqual f g = true ↔ f = g)
      ∧ gather scenarioA false 0 = (⟨scenarioA_local, none⟩, ⟨scenarioA_remote, none⟩, 2)
      ∧ gather scenarioA_second true 7
          = (⟨scenarioA_local, none⟩, ⟨scenarioA_converged, none⟩, 9)
      ∧ ((∀ k, (applyActions scenarioA_local scenarioA_remote
              (Process fpEqual id scenarioA ⟨false, [false, true]⟩ 0).2.trace).lookup k
            = scenarioA_local.lookup k)
          ∧ putKeys (Process fpEqual id scenarioA_second ⟨true, [true]⟩ 7).2.trace = []
          ∧ removeKeys (Process fpEqual id scenarioA_second ⟨true, [true]⟩ 7).2.trace = []
          ∧ ((∀ k, scenarioA_remote.lookup k = scenarioA_local.lookup k) →
              putKeys (Process fpEqual id scenarioA ⟨false, [false, true]⟩ 0).2.trace = []
                ∧ removeKeys (Process fpEqual id scenarioA ⟨false, [false, true]⟩ 0).2.trace
                    = []))
      ∧ scenarioA_converged.entries = [("b", 2), ("a", 1)] :=
  ⟨fun f g => by simp [fpEqual], rfl, rfl,
    convergence_idempotent fpEqual (fun f g => by simp [fpEqual]) id scenarioA
      scenarioA_second ⟨false, [false, true]⟩ ⟨true, [true]⟩ 0 7
      scenarioA_local scenarioA_remote scenarioA_converged 2 9 rfl (fun _ => rfl) rfl,
    by decide⟩

/-- C6: when both gatherers return successfully with manifests `L` and `R`, the
sequence of keys passed to `putToRemote` and the sequence of keys passed to
`removeFromRemote` have no duplicate; every key of `L` that is missing from `R`
or unequal to the record of `R` occurs exactly once among the put calls, and
every key of `R` missing from `L` occurs exactly once among the remove calls. -/
theorem actions_issued_exactly_once {file ε σ : Type} (isEqual : file → file → Bool)
    (Error : ε → String) (p : processor file ε σ) (sched : Schedule) (env : σ)
    (L R : Manifest file) (s : σ)
    (hg : gather p sched.remoteGatherFirst env = (⟨L, none⟩, ⟨R, none⟩, s)) :
    (putKeys (Process isEqual Error p sched env).2.trace).Nodup
      ∧ (removeKeys (Process isEqual Error p sched env).2.trace).Nodup
      ∧ (∀ k lf, L.lookup k = some lf →
          (R.lookup k = none ∨ ∃ rf, R.lookup k = some rf ∧ isEqual lf rf = false) →
          (putKeys (Process isEqual Error p sched env).2.trace).count k = 1)
      ∧ (∀ k, k ∈ R.keys → k ∉ L.keys →
          (removeKeys (Process isEqual Error p sched env).2.trace).count k = 1) := by
  obtain ⟨_, hput, hrem, _⟩ := Process_ok_trace isEqual Error p sched env L R s hg
  rw [hput, hrem]
  refine ⟨uploadKeys_nodup isEqual L R, deleteKeys_nodup L R, ?_, ?_⟩
  · intro k lf hl hc
    exact List.count_eq_one_of_mem (uploadKeys_nodup isEqual L R)
      ((mem_uploadKeys_iff isEqual L R k).mpr ⟨lf, hl, hc⟩)
  · intro k hr hl
    exact List.count_eq_one_of_mem (deleteKeys_nodup L R)
      ((mem_deleteKeys_iff L R k).mpr ⟨hr, hl⟩)

/-- In scenario A `b` is put once and `c` is removed once. -/
theorem actions_issued_exactly_once_witness :
    gather scenarioA true 0 = (⟨scenarioA_local, none⟩, ⟨scenarioA_remote, none⟩, 2)
      ∧ (putKeys (Process fpEqual id scenarioA ⟨true, [false, false]⟩ 0).2.trace).count "b" = 1
      ∧ (removeKeys (Process fpEqual id scenarioA ⟨true, [false, false]⟩ 0).2.trace).count "c"
          = 1 :=
  ⟨rfl,
    (actions_issued_exactly_once fpEqual id scenarioA ⟨true, [false, false]⟩ 0
      scenarioA_local scenarioA_remote 2 rfl).2.2.1 "b" 2 rfl (Or.inl rfl),
    (actions_issued_exactly_once fpEqual id scenarioA ⟨true, [false, false]⟩ 0
      scenarioA_local scenarioA_remote 2 rfl).2.2.2 "c" (by decide) (by decide)⟩

/-- C7: when both gathers succeed, `Process` returns `nil` whatever
`putToRemote` and `removeFromRemote` return, and under any interleaving the
sequence of keys passed to `putToRemote` and the sequence passed to
`removeFromRemote` are those of the run in which every action succeeds. -/
theorem action_failure_independent {file ε σ : Type} (isEqual : file → file → Bool)
    (Error : ε → String) (p : processor file ε σ) (sched : Schedule) (env : σ)
    (passes2 : List Bool) (L R : Manifest file) (s : σ)
    (hg : gather p sched.remoteGatherFirst env = (⟨L, none⟩, ⟨R, none⟩, s)) :
    (Process isEqual Error p sched env).1 = none
      ∧ putKeys (Process isEqual Error p sched env).2.trace
          = putKeys (Process isEqual Error (allSucceed p)
              ⟨sched.remoteGatherFirst, passes2⟩ env).2.trace
      ∧ removeKeys (Process isEqual Error p sched env).2.trace
          = removeKeys (Process isEqual Error (allSucceed p)
              ⟨sched.remoteGatherFirst, passes2⟩ env).2.trace := by
  have hg2 : gather (allSucceed p) sched.remoteGatherFirst env
      = (⟨L, none⟩, ⟨R, none⟩, s) := by
    rw [← hg]
    rfl
  obtain ⟨h0, h1, h2, _⟩ := Process_ok_trace isEqual Error p sched env L R s hg
  obtain ⟨_, i1, i2, _⟩ := Process_ok_trace isEqual Error (allSucceed p)
    ⟨sched.remoteGatherFirst, passes2⟩ env L R s hg2
  exact ⟨h0, by rw [h1, i1], by rw [h2, i2]⟩

/-- Scenario A with every action failing: no error is returned and both actions
are attempted. -/
theorem action_failure_independent_witness :
    gather scenarioA_failing false 0
        = (⟨scenarioA_local, none⟩, ⟨scenarioA_remote, none⟩, 2)
      ∧ ((Process fpEqual id scenarioA_failing ⟨false, [true]⟩ 0).1 = none
          ∧ putKeys (Process fpEqual id scenarioA_failing ⟨false, [true]⟩ 0).2.trace
              = putKeys (Process fpEqual id (allSucceed scenarioA_failing)
                  ⟨false, [false, false]⟩ 0).2.trace
          ∧ removeKeys (Process fpEqual id scenarioA_failing ⟨false, [true]⟩ 0).2.trace
              = removeKeys (Process fpEqual id (allSucceed scenarioA_failing)
                  ⟨false, [false, false]⟩ 0).2.trace)
      ∧ (Process fpEqual id scenarioA_failing ⟨false, [true]⟩ 0).2.trace
          = [Event.put "b" (some "remote refused b"), Event.remove "c" (some "remote refused c")] :=
  ⟨rfl,
    action_failure_independent fpEqual id scenarioA_failing ⟨false, [true]⟩ 0
      [false, false] scenarioA_local scenarioA_remote 2 rfl,
    by decide⟩

/-- C8 as stated fails: in scenario A with a failing remote store the call
`putToRemote("b")` and the call `removeFromRemote("c")` both return an error,
and nothing at all is sent on the log channel. -/
theorem action_failure_log_counterexample :
    Event.put "b" (some "remote refused b")
        ∈ (Process fpEqual id scenarioA_failing ⟨false, []⟩ 0).2.trace
      ∧ Event.remove "c" (some "remote refused c")
        ∈ (Process fpEqual id scenarioA_failing ⟨false, []⟩ 0).2.trace
      ∧ logEntries (Process fpEqual id scenarioA_failing ⟨false, []⟩ 0).2.trace = [] := by
  decide

/-- C8 amended: when both gathers succeed, `Process` sends nothing on its log
channel and returns `nil`, whatever `putToRemote` and `removeFromRemote`
return: the error an action returns is dropped by the processor. -/
theorem action_errors_dropped {file ε σ : Type} (isEqual : file → file → Bool)
    (Error : ε → String) (p : processor file ε σ) (sched : Schedule) (env : σ)
    (hl : (gather p sched.remoteGatherFirst env).1.err = none)
    (hr : (gather p sched.remoteGatherFirst env).2.1.err = none) :
    logEntries (Process isEqual Error p sched env).2.trace = []
      ∧ (Process isEqual Error p sched env).1 = none := by
  rw [Process_ok isEqual Error p sched env hl hr]
  obtain ⟨_, _, h3⟩ := runPasses_trace isEqual p
    (gather p sched.remoteGatherFirst env).1.result
    (gather p sched.remoteGatherFirst env).2.1.result sched.passes
    (gather p sched.remoteGatherFirst env).1.result.entries
    (gather p sched.remoteGatherFirst env).2.1.result.entries
    ⟨(gather p sched.remoteGatherFirst env).2.2, []⟩
  exact ⟨by simpa [logEntries] using h3, rfl⟩

/-- Scenario A with a failing remote store, upload loop first: nothing is
logged. -/
theorem action_errors_dropped_witness :
    (gather scenarioA_failing true 0).1.err = none
      ∧ (gather scenarioA_failing true 0).2.1.err = none
      ∧ (logEntries (Process fpEqual id scenarioA_failing ⟨true, [true, true]⟩ 0).2.trace = []
          ∧ (Process fpEqual id scenarioA_failing ⟨true, [true, true]⟩ 0).1 = none) :=
  ⟨rfl, rfl,
    action_errors_dropped fpEqual id scenarioA_failing ⟨true, [true, true]⟩ 0 rfl rfl⟩

/-- C9: started from the empty list built by `NewReporter`, a `Run` that
receives the entries `es` in that order and then the done signal returns with
exactly `es` accumulated; `Print` then hands to the logger the line "Report",
the separator line, the `String()` of each entry in arrival order, and one empty
line, and leaves the accumulated entries as they are. -/
theorem reporter_keeps_arrival_order {entry : Type} (entryString : entry → String)
    (l : List String) (es : List entry) (later : List (Received entry)) :
    ∃ r : reporter entry,
      reporter.Run (NewReporter l) (es.map Received.entry ++ Received.done :: later) = some r
        ∧ r.entries = es
        ∧ r.logger = l ++ ["Received done signal, waiting for all processes to finish"]
        ∧ (reporter.Print entryString r).logger
            = r.logger
              ++ ("Report" :: "-------------------------------" :: es.map entryString ++ [""])
        ∧ (reporter.Print entryString r).entries = es := by
  refine ⟨_, reporter_Run_entries (NewReporter l) es later, ?_, rfl, ?_, ?_⟩
  · simp [NewReporter]
  · simp only [reporter.Print]
    rw [foldl_Println]
    simp [Println, NewReporter]
  · simp [reporter.Print, NewReporter]

/-- C10: if the local gather fails, `Process` returns the local error and sends
exactly one log entry, "error returned while gathering local files, err: "
followed by the text of that error, whether or not the remote gather failed
too; if only the remote gather fails, it returns the remote error and sends
exactly one log entry, "error returned while gathering remote files, err: "
followed by the text of that error; if both gathers succeed it sends none. -/
theorem gather_failure_logged {file ε σ : Type} (isEqual : file → file → Bool)
    (Error : ε → String) (p : processor file ε σ) (sched : Schedule) (env : σ) :
    (∀ e, (gather p sched.remoteGatherFirst env).1.err = some e →
        (Process isEqual Error p sched env).1 = some e
          ∧ logEntries (Process isEqual Error p sched env).2.trace
              = [⟨"error returned while gathering local files, err: " ++ Error e⟩])
      ∧ (∀ e, (gather p sched.remoteGatherFirst env).1.err = none →
        (gather p sched.remoteGatherFirst env).2.1.err = some e →
        (Process isEqual Error p sched env).1 = some e
          ∧ logEntries (Process isEqual Error p sched env).2.trace
              = [⟨"error returned while gathering remote files, err: " ++ Error e⟩])
      ∧ ((gather p sched.remoteGatherFirst env).1.err = none →
        (gather p sched.remoteGatherFirst env).2.1.err = none →
        logEntries (Process isEqual Error p sched env).2.trace = []) := by
  refine ⟨fun e hl => ?_, fun e hl hr => ?_, fun hl hr => ?_⟩
  · rw [Process_local_err isEqual Error p sched env e hl]
    simp [sendLog, logEntries]
  · rw [Process_remote_err isEqual Error p sched env e hl hr]
    simp [sendLog, logEntries]
  · rw [Process_ok isEqual Error p sched env hl hr]
    obtain ⟨_, _, h3⟩ := runPasses_trace isEqual p
      (gather p sched.remoteGatherFirst env).1.result
      (gather p sched.remoteGatherFirst env).2.1.result sched.passes
      (gather p sched.remoteGatherFirst env).1.result.entries
      (gather p sched.remoteGatherFirst env).2.1.result.entries
      ⟨(gather p sched.remoteGatherFirst env).2.2, []⟩
    simpa [logEntries] using h3

/-- Both gathers fail: the local failure is logged and returned.  Only the
remote gather fails: the remote failure is logged and returned.  Scenario A:
nothing is logged. -/
theorem gather_failure_logged_witness :
    (gather bothGathersFail true 0).1.err = some "disk unreadable"
      ∧ (gather bothGathersFail true 0).2.1.err = some "bucket unreachable"
      ∧ ((Process fpEqual id bothGathersFail ⟨true, []⟩ 0).1 = some "disk unreadable"
          ∧ logEntries (Process fpEqual id bothGathersFail ⟨true, []⟩ 0).2.trace
              = [⟨"error returned while gathering local files, err: disk unreadable"⟩])
      ∧ ((Process fpEqual id remoteGatherFails ⟨false, []⟩ 0).1 = some "bucket unreachable"
          ∧ logEntries (Process fpEqual id remoteGatherFails ⟨false, []⟩ 0).2.trace
              = [⟨"error returned while gathering remote files, err: bucket unreachable"⟩])
      ∧ logEntries (Process fpEqual id scenarioA ⟨false, []⟩ 0).2.trace = [] :=
  ⟨rfl, rfl,
    (gather_failure_logged fpEqual id bothGathersFail ⟨true, []⟩ 0).1 "disk unreadable" rfl,
    (gather_failure_logged fpEqual id remoteGatherFails ⟨false, []⟩ 0).2.1
      "bucket unreachable" rfl rfl,
    (gather_failure_logged fpEqual id scenarioA ⟨false, []⟩ 0).2.2 rfl rfl⟩

end backup

